import Mathlib

/-!
Verification of the parkme watering system: the raspberry mediator
(`src/data/watering_system/raspberry/mediator.py`) and the cloud controller
(`src/data/watering_system/vm/controller.py`), via a shallow embedding.

Decoded JSON values stand for the Python objects `json.loads` produces;
environment variables, broker deliveries and generated uuids are explicit
parameters of the embedded functions.
-/

/-- Decoded JSON value (the image of Python `json.loads`).  Object field
lists are kept in order; lookup follows Python dict semantics, where for a
duplicated key the last occurrence wins (as in `json.loads`). -/
inductive Json where
  | null
  | bool (b : Bool)
  | num (n : Int)
  | str (s : String)
  | arr (xs : List Json)
  | obj (fields : List (String × Json))
deriving Repr

mutual

/-- Boolean equality of decoded JSON values. -/
def Json.beq : Json → Json → Bool
  | .null, .null => true
  | .bool a, .bool b => a == b
  | .num a, .num b => a == b
  | .str a, .str b => a == b
  | .arr xs, .arr ys => Json.beqList xs ys
  | .obj fs, .obj gs => Json.beqFields fs gs
  | _, _ => false

/-- Boolean equality of JSON arrays. -/
def Json.beqList : List Json → List Json → Bool
  | [], [] => true
  | x :: xs, y :: ys => Json.beq x y && Json.beqList xs ys
  | _, _ => false

/-- Boolean equality of JSON object field lists. -/
def Json.beqFields : List (String × Json) → List (String × Json) → Bool
  | [], [] => true
  | (k, v) :: fs, (l, w) :: gs => k == l && Json.beq v w && Json.beqFields fs gs
  | _, _ => false

end

mutual

theorem Json.beq_refl : ∀ a : Json, Json.beq a a = true
  | .null => rfl
  | .bool b => by simp [Json.beq]
  | .num n => by simp [Json.beq]
  | .str s => by simp [Json.beq]
  | .arr xs => by simp [Json.beq, Json.beqList_refl xs]
  | .obj fs => by simp [Json.beq, Json.beqFields_refl fs]

theorem Json.beqList_refl : ∀ xs : List Json, Json.beqList xs xs = true
  | [] => rfl
  | x :: xs => by simp [Json.beqList, Json.beq_refl x, Json.beqList_refl xs]

theorem Json.beqFields_refl : ∀ fs : List (String × Json), Json.beqFields fs fs = true
  | [] => rfl
  | (k, v) :: fs => by simp [Json.beqFields, Json.beq_refl v, Json.beqFields_refl fs]

end

mutual

theorem Json.eq_of_beq : ∀ a b : Json, Json.beq a b = true → a = b
  | .null, .null, _ => rfl
  | .bool a, .bool b, h => by simp [Json.beq] at h; simp [h]
  | .num a, .num b, h => by simp [Json.beq] at h; simp [h]
  | .str a, .str b, h => by simp [Json.beq] at h; simp [h]
  | .arr xs, .arr ys, h => by
      rw [Json.eq_of_beqList xs ys (by simpa [Json.beq] using h)]
  | .obj fs, .obj gs, h => by
      rw [Json.eq_of_beqFields fs gs (by simpa [Json.beq] using h)]
  | .null, .bool _, h => by simp [Json.beq] at h
  | .null, .num _, h => by simp [Json.beq] at h
  | .null, .str _, h => by simp [Json.beq] at h
  | .null, .arr _, h => by simp [Json.beq] at h
  | .null, .obj _, h => by simp [Json.beq] at h
  | .bool _, .null, h => by simp [Json.beq] at h
  | .bool _, .num _, h => by simp [Json.beq] at h
  | .bool _, .str _, h => by simp [Json.beq] at h
  | .bool _, .arr _, h => by simp [Json.beq] at h
  | .bool _, .obj _, h => by simp [Json.beq] at h
  | .num _, .null, h => by simp [Json.beq] at h
  | .num _, .bool _, h => by simp [Json.beq] at h
  | .num _, .str _, h => by simp [Json.beq] at h
  | .num _, .arr _, h => by simp [Json.beq] at h
  | .num _, .obj _, h => by simp [Json.beq] at h
  | .str _, .null, h => by simp [Json.beq] at h
  | .str _, .bool _, h => by simp [Json.beq] at h
  | .str _, .num _, h => by simp [Json.beq] at h
  | .str _, .arr _, h => by simp [Json.beq] at h
  | .str _, .obj _, h => by simp [Json.beq] at h
  | .arr _, .null, h => by simp [Json.beq] at h
  | .arr _, .bool _, h => by simp [Json.beq] at h
  | .arr _, .num _, h => by simp [Json.beq] at h
  | .arr _, .str _, h => by simp [Json.beq] at h
  | .arr _, .obj _, h => by simp [Json.beq] at h
  | .obj _, .null, h => by simp [Json.beq] at h
  | .obj _, .bool _, h => by simp [Json.beq] at h
  | .obj _, .num _, h => by simp [Json.beq] at h
  | .obj _, .str _, h => by simp [Json.beq] at h
  | .obj _, .arr _, h => by simp [Json.beq] at h

theorem Json.eq_of_beqList : ∀ xs ys : List Json, Json.beqList xs ys = true → xs = ys
  | [], [], _ => rfl
  | x :: xs, y :: ys, h => by
      simp [Json.beqList] at h
      rw [Json.eq_of_beq x y h.1, Json.eq_of_beqList xs ys h.2]
  | [], _ :: _, h => by simp [Json.beqList] at h
  | _ :: _, [], h => by simp [Json.beqList] at h

theorem Json.eq_of_beqFields :
    ∀ fs gs : List (String × Json), Json.beqFields fs gs = true → fs = gs
  | [], [], _ => rfl
  | (k, v) :: fs, (l, w) :: gs, h => by
      simp [Json.beqFields] at h
      rw [h.1.1, Json.eq_of_beq v w h.1.2, Json.eq_of_beqFields fs gs h.2]
  | [], _ :: _, h => by simp [Json.beqFields] at h
  | _ :: _, [], h => by simp [Json.beqFields] at h

end

instance : DecidableEq Json := fun a b =>
  decidable_of_iff (Json.beq a b = true) ⟨Json.eq_of_beq a b, fun h => h ▸ Json.beq_refl a⟩

/-- Python truthiness of a decoded JSON value (`if x:` / `x or y`). -/
def Json.truthy : Json → Bool
  | .null => false
  | .bool b => b
  | .num n => n != 0
  | .str s => s != ""
  | .arr xs => !xs.isEmpty
  | .obj fs => !fs.isEmpty

/-- Whether a decoded JSON value is hashable as a Python dict key: lists
and dicts are not — using one as a dict key, or looking one up, raises
`TypeError: unhashable type`. -/
def Json.hashable : Json → Bool
  | .arr _ => false
  | .obj _ => false
  | _ => true

/-- Python `d.get(key)` on a decoded JSON object: value of the last field
carrying that key (dict construction keeps the last duplicate); `none` when
the key is absent or the value is not an object.  The callers that invoke
`.get` on a non-object value raise `AttributeError`; they are modelled
explicitly at each call site. -/
def Json.get? (j : Json) (key : String) : Option Json :=
  match j with
  | .obj fs => (fs.reverse.find? (fun kv => kv.1 == key)).map (·.2)
  | _ => none

/-- Python `str()` of a decoded JSON value, as used by f-string topic
interpolation.  Container rendering is approximated (no theorem below
depends on it). -/
def pyStr : Json → String
  | .null => "None"
  | .bool true => "True"
  | .bool false => "False"
  | .num n => toString n
  | .str s => s
  | .arr _ => "[...]"
  | .obj _ => "[...]"

/-- Key coercion `json.dump` applies to dict keys: strings stay, int, bool
and null keys become their JSON text.  Container keys make `json.dump`
raise and never reach the file; the registry theorems constrain keys to
strings. -/
def jsonKeyStr : Json → String
  | .str s => s
  | .num n => toString n
  | .bool true => "true"
  | .bool false => "false"
  | .null => "null"
  | .arr _ => "unserializable"
  | .obj _ => "unserializable"

/-- Helper for `splitSlash`: segments of a character list between slashes,
with the reversed characters of the current segment as accumulator. -/
def splitSlashChars : List Char → List Char → List String
  | [], acc => [String.mk acc.reverse]
  | c :: cs, acc =>
      if c = '/' then String.mk acc.reverse :: splitSlashChars cs []
      else splitSlashChars cs (c :: acc)

/-- Python `s.split("/")`: the segments of s between slash characters. -/
def splitSlash (s : String) : List String := splitSlashChars s.data []

/-- Whether a character list ends with another. -/
def charsEndWith (s pat : List Char) : Bool :=
  decide (pat.length ≤ s.length) && (s.drop (s.length - pat.length) == pat)

/-- Python `s.endswith(pat)`. -/
def pyEndsWith (s pat : String) : Bool := charsEndWith s.data pat.data

/-- A raw MQTT payload as seen through `json.loads`: bytes that fail to
parse, or the decoded value. -/
inductive Raw where
  | malformed
  | wellFormed (j : Json)
deriving DecidableEq, Repr

/-- A Python dict with decoded-JSON keys and values of type α, in insertion
order.  `_device_registry` (mediator.py line 45) is one with Json values;
the RPC pending table is one with waiter-entry values. -/
abbrev PyDict (α : Type) := List (Json × α)

/-- Python dict lookup `d.get(k)`: the value of the last binding whose key
equals `k` (dict construction keeps the last duplicate). -/
def dictGet {α : Type} : PyDict α → Json → Option α
  | [], _ => none
  | kv :: d, k =>
      match dictGet d k with
      | some v => some v
      | none => if kv.1 = k then some kv.2 else none

/-- Python dict assignment `d[k] = v`: replace the value of an existing key
in place, otherwise append the new binding. -/
def dictSet {α : Type} (d : PyDict α) (k : Json) (v : α) : PyDict α :=
  if d.any (fun kv => kv.1 == k) then
    d.map (fun kv => if kv.1 = k then (k, v) else kv)
  else d ++ [(k, v)]

/-- The in-memory device registry: announcement payloads keyed by their id
value. -/
abbrev RegistryD := PyDict Json

/-- Bytes of the file at REGISTRY_PATH: either text that `json.load`
rejects, or the serialization of a decoded JSON value. -/
inductive FileContent where
  | corrupt
  | jsonText (j : Json)
deriving DecidableEq, Repr

/-- `save_registry` serialization (mediator.py line 71): `json.dump` of the
registry dict, coercing non-string keys to their JSON text. -/
def saveJson (reg : RegistryD) : Json :=
  .obj (reg.map (fun kv => (jsonKeyStr kv.1, kv.2)))

/-- `load_registry` (mediator.py lines 50-64) as a function of the bytes at
REGISTRY_PATH (`none`: the file is absent).  A missing file, a file
`json.load` rejects, and a file holding a non-dict value all yield the
empty registry. -/
def load_registry : Option FileContent → RegistryD
  | none => []
  | some .corrupt => []
  | some (.jsonText j) =>
      match j with
      | .obj fs => fs.map (fun kv => (Json.str kv.1, kv.2))
      | _ => []

/-- Content of the temporary sibling file REGISTRY_PATH + ".tmp". -/
inductive TmpContent where
  | incomplete
  | complete (j : Json)
deriving DecidableEq, Repr

/-- The two files `save_registry` touches. -/
structure Disk where
  regFile : Option FileContent
  tmpFile : Option TmpContent
deriving DecidableEq, Repr

/-- Atomic file-system transitions of `save_registry` (mediator.py lines
66-75): a write of the temporary sibling, which an interruption or a dump
failure may leave incomplete, and the `os.replace` rename, which the code
reaches only after `json.dump` returned, hence only with a complete
temporary file.  A crash at any instant is a prefix of steps; repeated
saves of possibly different registry values are longer step sequences. -/
inductive SaveStep : Disk → Disk → Prop
  | writeIncomplete (d : Disk) :
      SaveStep d ⟨d.regFile, some .incomplete⟩
  | writeComplete (d : Disk) (reg : RegistryD) :
      SaveStep d ⟨d.regFile, some (.complete (saveJson reg))⟩
  | rename (d : Disk) (j : Json) (h : d.tmpFile = some (.complete j)) :
      SaveStep d ⟨some (.jsonText j), none⟩

/-- The registry path holds nothing or a full serialization of some
registry value — never a partial write. -/
def RegWellFormed (d : Disk) : Prop :=
  d.regFile = none ∨ ∃ reg : RegistryD, d.regFile = some (.jsonText (saveJson reg))

/-- Inductive invariant for `SaveStep`: the registry path is well formed and
any complete temporary file holds a serialized registry. -/
def DiskInv (d : Disk) : Prop :=
  RegWellFormed d ∧ ∀ j, d.tmpFile = some (.complete j) → ∃ reg : RegistryD, j = saveJson reg

theorem diskInv_preserved {d d' : Disk} (hinv : DiskInv d) (hstep : SaveStep d d') :
    DiskInv d' := by
  obtain ⟨hreg, htmp⟩ := hinv
  cases hstep with
  | writeIncomplete => exact ⟨hreg, by intro j hj; simp at hj⟩
  | writeComplete reg =>
      exact ⟨hreg, by intro j hj; simp at hj; exact ⟨reg, hj.symm⟩⟩
  | rename j h =>
      obtain ⟨reg, hj⟩ := htmp j h
      exact ⟨Or.inr ⟨reg, by simp [hj]⟩, by intro j hj; simp at hj⟩

/-- A Python numeric value: an int or a float.  Floats carry a rational so
that arithmetic is exact; what matters below is only their typedness. -/
inductive PyNum where
  | int (n : Int)
  | float (x : Rat)
deriving DecidableEq, Repr

/-- Python rendering of a number inside an f-string (float rendering is
approximate; no theorem below depends on it). -/
def PyNum.render : PyNum → String
  | .int n => toString n
  | .float x => toString x

/-- Python `x + 1`: ints stay ints, floats stay floats. -/
def PyNum.add1 : PyNum → PyNum
  | .int n => .int (n + 1)
  | .float x => .float (x + 1)

/-- Exceptions raised along the embedded RPC paths. -/
inductive PyErr where
  | typeErr (msg : String)
  | timeoutErr (msg : String)
  | attrErr (msg : String)
deriving DecidableEq, Repr

/-- `str(e)` of an exception: its message. -/
def PyErr.toMsg : PyErr → String
  | .typeErr m => m
  | .timeoutErr m => m
  | .attrErr m => m

/-- Python `range(1, b)`: the integers 1..b-1 for an int bound; a float
bound raises `TypeError`, since `range` accepts only integers. -/
def pyRange1 : PyNum → Except PyErr (List Int)
  | .int b => .ok ((List.range (b - 1).toNat).map (fun i => (i : Int) + 1))
  | .float _ => .error (.typeErr "float object cannot be interpreted as an integer")

/-- mediator.py line 34: `RPC_MAX_RETRIES = float(os.getenv("RPC_TIMEOUT", "3"))`.
The constant reads the RPC_TIMEOUT environment variable (not RPC_MAX_RETRIES);
the parameter is that variable's numeric value, `none` when it is unset (the
getenv default "3" then parses to 3).  `float()` makes the result a Python
float in every environment in which the module loads at all. -/
def RPC_MAX_RETRIES (rpcTimeoutEnv : Option Rat) : PyNum :=
  .float (rpcTimeoutEnv.getD 3)

/-- Observable actions of `MqttRpcClient.call` on the pending table and the
local broker, in program order. -/
inductive RpcEvent where
  | insertPending (reqId : String)
  | subscribeLocal (topic : String)
  | publishLocal (topic : String) (payload : Json)
  | popPending (reqId : String)
deriving DecidableEq, Repr

instance {ε α : Type} [DecidableEq ε] [DecidableEq α] : DecidableEq (Except ε α) := fun a b =>
  match a, b with
  | .ok x, .ok y => if h : x = y then isTrue (by rw [h]) else isFalse (by simp [h])
  | .error x, .error y => if h : x = y then isTrue (by rw [h]) else isFalse (by simp [h])
  | .ok _, .error _ => isFalse (by simp)
  | .error _, .ok _ => isFalse (by simp)

/-- Result of one `MqttRpcClient.call` invocation: the value returned or the
exception raised, the trace of table and broker actions, and the number of
loop iterations entered. -/
structure CallResult where
  outcome : Except PyErr Json
  trace : List RpcEvent
  attemptsStarted : Nat
deriving DecidableEq, Repr

/-- The retry loop body of `MqttRpcClient.call` (mediator.py lines 140-178),
iterated over the remaining attempt list.  `uuid k` is the hex id
`uuid.uuid4().hex` yields on iteration k; `responder k` is the response
envelope `_on_message` deposits into iteration k's waiter before the
timeout (`none`: `event.wait` times out).  A timeout, and likewise the
missing-response `TimeoutError`, is caught and retried after the `finally`
pop; a signalled waiter with a truthy payload is popped and its `result`
field returned (Python `.get` yields None when the field is absent).  When
the attempts run out, `last_error` — or, were it unset, the
retries-exhausted TimeoutError `failMsg` — is raised. -/
def runAttempts (failMsg : String) (device method : String) (params : Json)
    (uuid : Nat → String) (responder : Nat → Option Json) :
    List Int → Option PyErr → List RpcEvent → Nat → CallResult
  | [], lastErr, tr, k => ⟨.error (lastErr.getD (.timeoutErr failMsg)), tr, k⟩
  | _ :: rest, _, tr, k =>
      let base := (splitSlash method).headD ""
      let reqId := uuid k
      let respTopic := device ++ "/" ++ base ++ "/response/" ++ reqId
      let reqTopic := device ++ "/" ++ method
      let envl := Json.obj [("requestId", .str reqId),
                            ("params", if params.truthy then params else .obj [])]
      let tr1 := tr ++ [.insertPending reqId, .subscribeLocal respTopic,
                        .publishLocal reqTopic envl]
      match responder k with
      | some p =>
          if p.truthy then
            ⟨.ok ((p.get? "result").getD .null),
             tr1 ++ [.popPending reqId, .popPending reqId], k + 1⟩
          else
            runAttempts failMsg device method params uuid responder rest
              (some (.timeoutErr "Response missing after event set"))
              (tr1 ++ [.popPending reqId, .popPending reqId]) (k + 1)
      | none =>
          runAttempts failMsg device method params uuid responder rest
            (some (.timeoutErr ("RPC timeout waiting for " ++ respTopic)))
            (tr1 ++ [.popPending reqId]) (k + 1)

/-- `MqttRpcClient.call` (mediator.py lines 130-181).  The retry bound is a
`PyNum` because line 34 produces a float; the `for` statement evaluates
`range(1, RPC_MAX_RETRIES + 1)` before any loop body runs, so a float bound
raises `TypeError` with no attempt started, no table insertion, no
subscribe and no publish. -/
def MqttRpcClient.call (retries : PyNum) (device method : String) (params : Json)
    (uuid : Nat → String) (responder : Nat → Option Json) : CallResult :=
  match pyRange1 retries.add1 with
  | .error e => ⟨.error e, [], 0⟩
  | .ok attempts =>
      runAttempts ("RPC failed after " ++ retries.render ++ " retries")
        device method params uuid responder attempts none [] 0

/-- A waiter entry of the mediator pending table: the deposited response and
whether its event has been set. -/
structure MEntry where
  response : Option Json
  eventSet : Bool
deriving DecidableEq, Repr

/-- The mediator RPC pending table, keyed by request id. -/
abbrev Pending := PyDict MEntry

/-- `MqttRpcClient._on_message` (mediator.py lines 116-128).  Unparseable
payloads return at once; the try block covers only `json.loads`, so a
parseable non-object payload raises `AttributeError` at `payload.get`, and
a truthy unhashable requestId (a list or object) raises `TypeError` at the
`self.pending.get(req_id)` lookup of line 125.  A falsy or absent requestId
returns; a matching entry gets the payload deposited and its event set (the
entry is not popped here). -/
def MqttRpcClient.on_message (pending : Pending) (raw : Raw) : Except PyErr Pending :=
  match raw with
  | .malformed => .ok pending
  | .wellFormed p =>
      match p with
      | .obj _ =>
          match p.get? "requestId" with
          | none => .ok pending
          | some rid =>
              if !rid.truthy then .ok pending
              else if !rid.hashable then .error (.typeErr "unhashable type")
              else if (dictGet pending rid).isSome then
                .ok (pending.map (fun kv => if kv.1 = rid then (rid, ⟨some p, true⟩) else kv))
              else .ok pending
      | _ => .error (.attrErr "payload object has no attribute get")

/-- A publish issued to the VM (cloud) broker via `safe_publish_vm`. -/
inductive VmEffect where
  | publishVm (topic : String) (payload : Raw)
deriving DecidableEq, Repr

/-- Arguments of the `rpc.call` dispatch a remote command triggers
(mediator.py line 293; the timeout argument is the constant RPC_TIMEOUT). -/
structure RpcDispatch where
  deviceId : String
  method : String
  params : Json
deriving DecidableEq, Repr

/-- The request id `on_vm_message` reads from a command payload
(mediator.py line 265): `payload.get("requestId", "")`. -/
def pyReqIdOf (p : Json) : Json := (p.get? "requestId").getD (.str "")

/-- The params `on_vm_message` reads (mediator.py line 266):
`payload.get("params", {}) or {}`. -/
def pyParamsOf (p : Json) : Json :=
  let q := (p.get? "params").getD (.obj [])
  if q.truthy then q else .obj []

/-- The trailing id segment of the response topic (mediator.py line 301):
`req_id or "noid"`, rendered by the f-string. -/
def pyReqTail (p : Json) : String :=
  if (pyReqIdOf p).truthy then pyStr (pyReqIdOf p) else "noid"

/-- `on_vm_message` (mediator.py lines 256-302).  `vmBase` models the
VM_BASE_PREFIX configuration (default "devices"); `rpcOutcome` is the
outcome of the `rpc.call` made at line 293 — the value it returns or the
exception it raises.  The function yields the dispatch issued to the local
RPC engine, if any, together with the publishes sent upstream.  A payload
`json.loads` rejects is logged and dropped; a parseable non-object payload
raises `AttributeError` at `payload.get` (the try block covers only the
parse). -/
def on_vm_message (vmBase : String) (registry : RegistryD) (topic : String)
    (raw : Raw) (rpcOutcome : Except PyErr Json) :
    Except PyErr (Option RpcDispatch × List VmEffect) :=
  match raw with
  | .malformed => .ok (none, [])
  | .wellFormed p =>
      match p with
      | .obj fs =>
          let reqId := pyReqIdOf (.obj fs)
          let params := pyParamsOf (.obj fs)
          let parts := splitSlash topic
          if topic = vmBase ++ "/mediator/devices/get" then
            .ok (none,
              [.publishVm (vmBase ++ "/mediator/devices/response/" ++ pyStr reqId)
                (.wellFormed (.obj [("requestId", reqId),
                                    ("result", .arr (registry.map (·.2)))]))])
          else if parts.length < 4 ∨ parts.headD "" ≠ vmBase then
            .ok (none, [])
          else
            let deviceId := (parts.drop 1).headD ""
            let method := String.intercalate "/" (parts.drop 2)
            let base := (parts.drop 2).headD ""
            let resp : Json :=
              match rpcOutcome with
              | .ok r => .obj [("requestId", reqId), ("result", r)]
              | .error e => .obj [("requestId", reqId), ("error", .str e.toMsg)]
            .ok (some ⟨deviceId, method, params⟩,
              [.publishVm (vmBase ++ "/" ++ deviceId ++ "/" ++ base ++ "/response/"
                  ++ pyReqTail (.obj fs))
                (.wellFormed resp)])
      | _ => .error (.attrErr "payload object has no attribute get")

/-- Result of `on_local_message`: the registry after the handler, whether
`save_registry` was triggered, and the upstream publishes. -/
structure LocalOut where
  registry : RegistryD
  savedRegistry : Bool
  effects : List VmEffect
deriving DecidableEq, Repr

/-- `on_local_message` (mediator.py lines 220-253).  On `devices/announce`
the payload is parsed; a truthy hashable `id` value upserts the payload
into the registry and triggers a save; every error inside the try block is
caught at line 234 and logged — the parse failure, the `AttributeError` of
`.get` on a non-object payload, and the `TypeError` the dict assignment of
line 229 raises for a truthy unhashable id (a list or object), which
happens before `save_registry()` runs, so the registry stays unchanged with
no save in all those cases; the raw bytes are then forwarded upstream on
the unprefixed `devices/announce` topic in every case.  Status topics are
forwarded upstream unchanged; RPC response topics are forwarded under the
vmBase namespace; other topics produce nothing. -/
def on_local_message (vmBase : String) (registry : RegistryD) (topic : String)
    (raw : Raw) : LocalOut :=
  if topic = "devices/announce" then
    let upserted : RegistryD × Bool :=
      match raw with
      | .malformed => (registry, false)
      | .wellFormed d =>
          match d with
          | .obj fs =>
              match (Json.obj fs).get? "id" with
              | some devId =>
                  if devId.truthy then
                    if devId.hashable then (dictSet registry devId (.obj fs), true)
                    else (registry, false)
                  else (registry, false)
              | none => (registry, false)
          | _ => (registry, false)
    ⟨upserted.1, upserted.2, [.publishVm "devices/announce" raw]⟩
  else if pyEndsWith topic "/bucket/status" ∨ pyEndsWith topic "/pump/status"
      ∨ pyEndsWith topic "/wifi/status" then
    ⟨registry, false, [.publishVm topic raw]⟩
  else
    let parts := splitSlash topic
    if 4 ≤ parts.length
        ∧ ((parts.drop 1).headD "" = "bucket" ∨ (parts.drop 1).headD "" = "pump"
            ∨ (parts.drop 1).headD "" = "wifi" ∨ (parts.drop 1).headD "" = "config")
        ∧ (parts.drop 2).headD "" = "response" then
      ⟨registry, false, [.publishVm (vmBase ++ "/" ++ topic) raw]⟩
    else ⟨registry, false, []⟩

/-- Outcome of `asyncio.wait_for` on the pending future inside
`AsyncMqttRpcClient.call`: the response envelope delivered before the
timeout, or the TimeoutError. -/
inductive AwaitOutcome where
  | responded (p : Json)
  | timedOut
deriving DecidableEq, Repr

/-- A raised FastAPI HTTPException. -/
structure HttpExc where
  status : Nat
  detail : String
deriving DecidableEq, Repr

/-- `AsyncMqttRpcClient.call` (controller.py lines 47-68): what it
subscribes, what it publishes, and its outcome — the `result` field of the
delivered envelope (None when absent), or HTTPException 504 on timeout. -/
structure ACallResult where
  subscribed : String
  published : String × Json
  outcome : Except HttpExc Json
deriving DecidableEq, Repr

def AsyncMqttRpcClient.call (deviceId method : String) (params : Option Json)
    (reqId : String) (oc : AwaitOutcome) : ACallResult :=
  let base := (splitSlash method).headD ""
  let respTopic := "devices/" ++ deviceId ++ "/" ++ base ++ "/response/" ++ reqId
  let reqTopic := "devices/" ++ deviceId ++ "/" ++ method
  let sentParams :=
    match params with
    | some p => if p.truthy then p else Json.obj []
    | none => Json.obj []
  let envl := Json.obj [("requestId", .str reqId), ("params", sentParams)]
  let outcome : Except HttpExc Json :=
    match oc with
    | .responded p => .ok ((p.get? "result").getD .null)
    | .timedOut => .error ⟨504, "Timeout waiting for " ++ method ++ " on " ++ deviceId⟩
  ⟨respTopic, (reqTopic, envl), outcome⟩

/-- `run_pump` route (controller.py lines 78-81). -/
def run_pump (deviceId : String) (seconds : Int) (reqId : String)
    (oc : AwaitOutcome) : Except HttpExc Json :=
  (AsyncMqttRpcClient.call deviceId "pump/run"
      (some (.obj [("duration", .num seconds)])) reqId oc).outcome.map
    (fun r => .obj [("device", .str deviceId), ("result", r)])

/-- `get_bucket_status` route (controller.py lines 83-86). -/
def get_bucket_status (deviceId : String) (reqId : String)
    (oc : AwaitOutcome) : Except HttpExc Json :=
  (AsyncMqttRpcClient.call deviceId "bucket/get" none reqId oc).outcome.map
    (fun r => .obj [("device", .str deviceId), ("bucket", r)])

/-- `get_wifi_status` route (controller.py lines 88-91). -/
def get_wifi_status (deviceId : String) (reqId : String)
    (oc : AwaitOutcome) : Except HttpExc Json :=
  (AsyncMqttRpcClient.call deviceId "wifi/get" none reqId oc).outcome.map
    (fun r => .obj [("device", .str deviceId), ("wifi", r)])

/-- `get_all_devices` route (controller.py lines 93-96). -/
def get_all_devices (reqId : String) (oc : AwaitOutcome) : Except HttpExc Json :=
  (AsyncMqttRpcClient.call "mediator" "devices/get" none reqId oc).outcome.map
    (fun r => .obj [("devices", r)])

/-- FastAPI outcome translation: a returned value is a 200 JSON response, a
raised HTTPException is its status code with a detail body. -/
def httpRespond : Except HttpExc Json → Nat × Json
  | .ok body => (200, body)
  | .error e => (e.status, .obj [("detail", .str e.detail)])

/-- State of the controller RPC engine (`AsyncMqttRpcClient`,
controller.py lines 19-68) together with execution history: the request
ids currently in `self.pending`, the calls in flight, the ids whose future
was resolved, the ids ever generated, the ids whose call has returned, and
per-id counters of table insertions and of `set_result` signals. -/
structure EngineState where
  pendingT : List String
  inFlight : List String
  resolvedIds : List String
  used : List String
  returned : List String
  inserts : String → Nat
  sigs : String → Nat

/-- Increment a per-id counter at one id. -/
def bump (f : String → Nat) (id : String) : String → Nat :=
  fun x => if x = id then f x + 1 else f x

/-- Interleaved atomic transitions of the controller RPC engine.
`startCall`: lines 48-50 — `call` generates a fresh uuid and inserts its
future into the pending table.  `deliverHit`: lines 42-45 — `_on_message`
pops a matching entry and resolves its future.  `deliverMiss`: a response
whose id has no entry is dropped.  `returnOk`: lines 64-65 — the await
completes, which requires the future resolved (hence already popped), and
`call` returns the result.  `returnTimeout`: lines 66-68 — the wait times
out with the future unresolved; `call` pops the entry and raises
HTTPException 504. -/
inductive EStep : EngineState → EngineState → Prop
  | startCall (s : EngineState) (id : String) (hfresh : id ∉ s.used) :
      EStep s ⟨id :: s.pendingT, id :: s.inFlight, s.resolvedIds, id :: s.used,
               s.returned, bump s.inserts id, s.sigs⟩
  | deliverHit (s : EngineState) (id : String) (h : id ∈ s.pendingT) :
      EStep s ⟨s.pendingT.erase id, s.inFlight, id :: s.resolvedIds, s.used,
               s.returned, s.inserts, bump s.sigs id⟩
  | deliverMiss (s : EngineState) (id : String) (h : id ∉ s.pendingT) :
      EStep s s
  | returnOk (s : EngineState) (id : String) (hin : id ∈ s.inFlight)
      (hres : id ∈ s.resolvedIds) :
      EStep s ⟨s.pendingT, s.inFlight.erase id, s.resolvedIds, s.used,
               id :: s.returned, s.inserts, s.sigs⟩
  | returnTimeout (s : EngineState) (id : String) (hin : id ∈ s.inFlight)
      (hres : id ∉ s.resolvedIds) :
      EStep s ⟨s.pendingT.erase id, s.inFlight.erase id, s.resolvedIds, s.used,
               id :: s.returned, s.inserts, s.sigs⟩

/-- The engine before any call: empty table, no history. -/
def engineInit : EngineState := ⟨[], [], [], [], [], fun _ => 0, fun _ => 0⟩

/-- Inductive invariant of the engine. -/
structure EngineInv (s : EngineState) : Prop where
  insertsLe : ∀ id, s.inserts id ≤ 1
  sigsLe : ∀ id, s.sigs id ≤ 1
  returnedNotPending : ∀ id ∈ s.returned, id ∉ s.pendingT
  freshClean : ∀ id, id ∉ s.used →
      s.inserts id = 0 ∧ s.sigs id = 0 ∧ id ∉ s.pendingT ∧ id ∉ s.inFlight
        ∧ id ∉ s.returned ∧ id ∉ s.resolvedIds
  pendingUnsignalled : ∀ id ∈ s.pendingT, s.sigs id = 0 ∧ id ∉ s.resolvedIds
  pendingNodup : s.pendingT.Nodup

theorem engineInv_init : EngineInv engineInit := by
  constructor <;> simp [engineInit]

theorem engineInv_preserved {s s' : EngineState} (hinv : EngineInv s)
    (hstep : EStep s s') : EngineInv s' := by
  obtain ⟨hIns, hSig, hRet, hFresh, hPU, hND⟩ := hinv
  cases hstep with
  | startCall id hfresh =>
      obtain ⟨hi0, hs0, hnp, hnf, hnr, hnres⟩ := hFresh id hfresh
      refine ⟨?_, hSig, ?_, ?_, ?_, ?_⟩
      · intro x
        by_cases hx : x = id
        · simp [bump, hx, hi0]
        · simpa [bump, hx] using hIns x
      · intro x hx
        simp only [List.mem_cons, not_or]
        exact ⟨fun he => hnr (he ▸ hx), hRet x hx⟩
      · intro x hx
        simp only [List.mem_cons, not_or] at hx
        obtain ⟨hi, hs, hp, hf, hr, hres⟩ := hFresh x hx.2
        refine ⟨?_, hs, ?_, ?_, hr, hres⟩
        · simp [bump, hx.1, hi]
        · simp [hx.1, hp]
        · simp [hx.1, hf]
      · intro x hx
        rcases List.mem_cons.mp hx with he | hm
        · subst he
          exact ⟨hs0, hnres⟩
        · exact hPU x hm
      · exact List.nodup_cons.mpr ⟨hnp, hND⟩
  | deliverHit id h =>
      have hPUid := hPU id h
      refine ⟨hIns, ?_, ?_, ?_, ?_, hND.erase id⟩
      · intro x
        by_cases hx : x = id
        · simp [bump, hx, hPUid.1]
        · simpa [bump, hx] using hSig x
      · intro x hx
        exact fun hm => hRet x hx (List.mem_of_mem_erase hm)
      · intro x hx
        obtain ⟨hi, hs, hp, hf, hr, hres⟩ := hFresh x hx
        have hxid : x ≠ id := fun he => hp (he ▸ h)
        refine ⟨hi, ?_, fun hm => hp (List.mem_of_mem_erase hm), hf, hr, ?_⟩
        · simp [bump, hxid, hs]
        · simp only [List.mem_cons, not_or]
          exact ⟨hxid, hres⟩
      · intro x hx
        have hx' := (List.Nodup.mem_erase_iff hND).mp hx
        obtain ⟨hs, hres⟩ := hPU x hx'.2
        refine ⟨?_, ?_⟩
        · simp [bump, hx'.1, hs]
        · simp only [List.mem_cons, not_or]
          exact ⟨hx'.1, hres⟩
  | deliverMiss id h => exact ⟨hIns, hSig, hRet, hFresh, hPU, hND⟩
  | returnOk id hin hres =>
      refine ⟨hIns, hSig, ?_, ?_, hPU, hND⟩
      · intro x hx
        rcases List.mem_cons.mp hx with he | hm
        · subst he
          exact fun hp => (hPU x hp).2 hres
        · exact hRet x hm
      · intro x hx
        obtain ⟨hi, hs, hp, hf, hr, hresx⟩ := hFresh x hx
        have hxid : x ≠ id := fun he => hf (he ▸ hin)
        refine ⟨hi, hs, hp, fun hm => hf (List.mem_of_mem_erase hm), ?_, hresx⟩
        simp only [List.mem_cons, not_or]
        exact ⟨hxid, hr⟩
  | returnTimeout id hin hres =>
      refine ⟨hIns, hSig, ?_, ?_, ?_, hND.erase id⟩
      · intro x hx
        rcases List.mem_cons.mp hx with he | hm
        · subst he
          exact fun hm => ((List.Nodup.mem_erase_iff hND).mp hm).1 rfl
        · exact fun hp => hRet x hm (List.mem_of_mem_erase hp)
      · intro x hx
        obtain ⟨hi, hs, hp, hf, hr, hresx⟩ := hFresh x hx
        have hxid : x ≠ id := fun he => hf (he ▸ hin)
        refine ⟨hi, hs, fun hm => hp (List.mem_of_mem_erase hm),
          fun hm => hf (List.mem_of_mem_erase hm), ?_, hresx⟩
        simp only [List.mem_cons, not_or]
        exact ⟨hxid, hr⟩
      · intro x hx
        exact hPU x (List.mem_of_mem_erase hx)

theorem engineInv_reachable {s : EngineState}
    (h : Relation.ReflTransGen EStep engineInit s) : EngineInv s := by
  induction h with
  | refl => exact engineInv_init
  | tail _ hstep ih => exact engineInv_preserved ih hstep

theorem dictGet_append_single {α : Type} (d : PyDict α) (k : Json) (v : α) :
    dictGet (d ++ [(k, v)]) k = some v := by
  induction d with
  | nil => simp [dictGet]
  | cons kv d ih => simp [dictGet, ih]

theorem dictGet_map_replace {α : Type} (d : PyDict α) (k : Json) (v : α) :
    dictGet (d.map (fun kv => if kv.1 = k then (k, v) else kv)) k
      = if d.any (fun kv => kv.1 == k) then some v else none := by
  induction d with
  | nil => simp [dictGet]
  | cons kv d ih =>
      by_cases hk : kv.1 = k
      · by_cases hd : d.any (fun kv => kv.1 == k) <;>
          simp [dictGet, hk, ih, hd]
      · by_cases hd : d.any (fun kv => kv.1 == k) <;>
          simp [dictGet, hk, ih, hd]

/-- Python dict assignment followed by lookup of the same key yields the
assigned value. -/
theorem dictGet_dictSet_self {α : Type} (d : PyDict α) (k : Json) (v : α) :
    dictGet (dictSet d k v) k = some v := by
  unfold dictSet
  by_cases hd : d.any (fun kv => kv.1 == k)
  · simp [hd, dictGet_map_replace]
  · simp [hd, dictGet_append_single]

theorem map_strKeys_id (d : RegistryD) (h : ∀ kv ∈ d, ∃ s, kv.1 = Json.str s) :
    d.map (fun kv => (Json.str (jsonKeyStr kv.1), kv.2)) = d := by
  induction d with
  | nil => rfl
  | cons kv d ih =>
      obtain ⟨s, hs⟩ := h kv (by simp)
      have h1 : Json.str (jsonKeyStr kv.1) = kv.1 := by rw [hs]; rfl
      rw [List.map_cons, h1, Prod.mk.eta, ih (fun x hx => h x (by simp [hx]))]

theorem dictSet_strKeys (d : RegistryD) (D : String) (A : Json)
    (h : ∀ kv ∈ d, ∃ s, kv.1 = Json.str s) :
    ∀ kv ∈ dictSet d (.str D) A, ∃ s, kv.1 = Json.str s := by
  intro kv hkv
  unfold dictSet at hkv
  by_cases hd : d.any (fun kv => kv.1 == Json.str D)
  · rw [if_pos hd] at hkv
    obtain ⟨x, hx, hfx⟩ := List.mem_map.mp hkv
    by_cases hx1 : x.1 = Json.str D
    · rw [if_pos hx1] at hfx
      exact ⟨D, by rw [← hfx]⟩
    · rw [if_neg hx1] at hfx
      exact hfx ▸ h x hx
  · rw [if_neg hd] at hkv
    rcases List.mem_append.mp hkv with hm | he
    · exact h kv hm
    · exact ⟨D, by rw [List.mem_singleton.mp he]⟩

/-- `json.dump` then `json.load` of a string-keyed registry is the
identity. -/
theorem load_save_roundtrip (reg : RegistryD)
    (h : ∀ kv ∈ reg, ∃ s, kv.1 = Json.str s) :
    load_registry (some (.jsonText (saveJson reg))) = reg := by
  show (reg.map (fun kv => (jsonKeyStr kv.1, kv.2))).map
      (fun kv => (Json.str kv.1, kv.2)) = reg
  rw [List.map_map]
  exact map_strKeys_id reg h

/-- C2: every invocation of the mediator `MqttRpcClient.call`, for any
arguments and any environment in which the module loads, raises `TypeError`
before any subscribe or publish is performed: RPC_MAX_RETRIES is read from
the RPC_TIMEOUT environment variable and converted with `float()`, and
`range(1, RPC_MAX_RETRIES + 1)` rejects a float bound — so `call` starts no
attempt, performs no table or broker action, never retries and never
returns a result. -/
theorem rpc_call_always_typeerror (rpcTimeoutEnv : Option Rat)
    (device method : String) (params : Json)
    (uuid : Nat → String) (responder : Nat → Option Json) :
    MqttRpcClient.call (RPC_MAX_RETRIES rpcTimeoutEnv) device method params uuid responder
      = ⟨.error (.typeErr "float object cannot be interpreted as an integer"), [], 0⟩ := rfl

/-- C1 (code bug): at the failing input — a `bucket/get` command for the
offline device espC, default environment — the mediator RPC call performs
zero attempts and zero publishes and raises `TypeError`, instead of making
3 attempts and failing with a Timeout; the mediator then publishes the
TypeError text, not "RPC failed after 3 retries", on the correlated
response topic. -/
theorem rpc_retry_budget_code_bug :
    MqttRpcClient.call (RPC_MAX_RETRIES none) "espC" "bucket/get" (.obj [])
        (fun _ => "r1") (fun _ => none)
      = ⟨.error (.typeErr "float object cannot be interpreted as an integer"), [], 0⟩
    ∧ on_vm_message "devices" [] "devices/espC/bucket/get"
        (.wellFormed (.obj [("requestId", .str "R")]))
        (MqttRpcClient.call (RPC_MAX_RETRIES none) "espC" "bucket/get" (.obj [])
            (fun _ => "r1") (fun _ => none)).outcome
      = .ok (some ⟨"espC", "bucket/get", .obj []⟩,
          [.publishVm "devices/espC/bucket/response/R"
            (.wellFormed (.obj [("requestId", .str "R"),
              ("error", .str "float object cannot be interpreted as an integer")]))])
    ∧ (Json.str "float object cannot be interpreted as an integer")
        ≠ .str "RPC failed after 3 retries" :=
  ⟨rfl, by decide, by decide⟩

/-- Concrete scene for claim C3: a pending call whose waiter is signalled
with an envelope carrying an error field and no result field. -/
def errorEnvelopeScene : CallResult :=
  runAttempts "RPC failed after 3 retries" "espA" "bucket/get" (.obj [])
    (fun _ => "r1")
    (fun _ => some (.obj [("requestId", .str "r1"), ("error", .str "device failure")]))
    [1, 2, 3] none [] 0

/-- C3 counterexample: the waiter is signalled by an envelope carrying an
error field — the call does not raise and does not surface the error
string; it returns the (absent) result field, i.e. None. -/
theorem rpc_error_envelope_not_raised :
    errorEnvelopeScene.outcome = .ok .null
    ∧ ∀ e : PyErr, errorEnvelopeScene.outcome ≠ .error e := by
  have h1 : errorEnvelopeScene.outcome = .ok .null := by decide
  exact ⟨h1, fun e he => Except.noConfusion (h1.symm.trans he)⟩

/-- C3 (amended): if the waiter of a pending RPC call is signalled by a
(truthy) response envelope, the call removes the pending entry and returns
the envelope result field (None when the field is absent) — including when
the envelope carries an error field instead: no error is raised or
surfaced. -/
theorem rpc_signalled_returns_result_field
    (failMsg device method : String) (params : Json) (uuid : Nat → String)
    (responder : Nat → Option Json) (a : Int) (rest : List Int)
    (le : Option PyErr) (tr : List RpcEvent) (k : Nat) (p : Json)
    (hresp : responder k = some p) (htruthy : p.truthy = true) :
    (runAttempts failMsg device method params uuid responder (a :: rest) le tr k).outcome
        = .ok ((p.get? "result").getD .null)
    ∧ RpcEvent.popPending (uuid k)
        ∈ (runAttempts failMsg device method params uuid responder (a :: rest) le tr k).trace := by
  constructor
  · simp [runAttempts, hresp, htruthy]
  · simp [runAttempts, hresp, htruthy]

/-- Witness for C3 (amended) at a concrete signalled envelope. -/
theorem rpc_signalled_returns_result_field_witness :
    (runAttempts "m" "espA" "bucket/get" (.obj []) (fun _ => "r1")
        (fun _ => some (.obj [("requestId", .str "r1"), ("result", .num 7)]))
        [1, 2, 3] none [] 0).outcome = .ok (.num 7)
    ∧ RpcEvent.popPending "r1"
        ∈ (runAttempts "m" "espA" "bucket/get" (.obj []) (fun _ => "r1")
            (fun _ => some (.obj [("requestId", .str "r1"), ("result", .num 7)]))
            [1, 2, 3] none [] 0).trace := by
  have h := rpc_signalled_returns_result_field "m" "espA" "bucket/get" (.obj [])
    (fun _ => "r1")
    (fun _ => some (.obj [("requestId", .str "r1"), ("result", .num 7)]))
    1 [2, 3] none [] 0
    (.obj [("requestId", .str "r1"), ("result", .num 7)]) rfl (by decide)
  refine ⟨?_, h.2⟩
  rw [h.1]
  decide

/-- C10: a payload that is not valid JSON is dropped on every subscribed
topic: the mediator RPC message handler returns with the pending table
unchanged and signals no waiter; the remote-command handler returns with no
dispatch and no response publish; the announce handler leaves the registry
unchanged and triggers no save. -/
theorem malformed_payload_dropped (pending : Pending) (vmBase : String)
    (reg : RegistryD) (topic : String) (oc : Except PyErr Json) :
    MqttRpcClient.on_message pending .malformed = .ok pending
    ∧ on_vm_message vmBase reg topic .malformed oc = .ok (none, [])
    ∧ (on_local_message vmBase reg "devices/announce" .malformed).registry = reg
    ∧ (on_local_message vmBase reg "devices/announce" .malformed).savedRegistry = false := by
  refine ⟨rfl, rfl, ?_, ?_⟩ <;> simp [on_local_message]

/-- C4 counterexample: a well-formed command that carries no requestId, on a
subscribed command topic.  The response-topic suffix substitutes "noid", but
the published body carries requestId "" — the `.get` default — and not
"noid", refuting the claim that the id in the body equals the command id or
the literal "noid". -/
theorem vm_command_noid_body_mismatch :
    on_vm_message "devices" [] "devices/espA/bucket/get" (.wellFormed (.obj []))
        (.error (.timeoutErr "t"))
      = .ok (some ⟨"espA", "bucket/get", .obj []⟩,
          [.publishVm "devices/espA/bucket/response/noid"
            (.wellFormed (.obj [("requestId", .str ""), ("error", .str "t")]))])
    ∧ (Json.str "") ≠ .str "noid" :=
  ⟨by decide, by decide⟩

/-- C4 (amended): for every well-formed JSON object command received on a
subscribed command topic vmBase/deviceId/..., the mediator dispatches one
local RPC call with the command params and produces exactly one upstream
publish, on vmBase/deviceId/base/response/T where T is the command
requestId (or "noid" when it is missing or falsy); the body carries the
requestId exactly as read from the command — the empty string, not "noid",
when the command had none — with the result on success or the error string
on failure. -/
theorem vm_command_single_publish_correlated
    (vmBase topic d b v : String) (rest : List String)
    (fs : List (String × Json)) (reg : RegistryD) (oc : Except PyErr Json)
    (hsplit : splitSlash topic = vmBase :: d :: b :: v :: rest)
    (hspecial : topic ≠ vmBase ++ "/mediator/devices/get") :
    ∃ body : Json,
      on_vm_message vmBase reg topic (.wellFormed (.obj fs)) oc
        = .ok (some ⟨d, String.intercalate "/" (b :: v :: rest), pyParamsOf (.obj fs)⟩,
            [.publishVm
              (vmBase ++ "/" ++ d ++ "/" ++ b ++ "/response/" ++ pyReqTail (.obj fs))
              (.wellFormed body)])
      ∧ body.get? "requestId" = some (pyReqIdOf (.obj fs))
      ∧ (∀ r, oc = .ok r → body.get? "result" = some r ∧ body.get? "error" = none)
      ∧ (∀ e, oc = .error e →
          body.get? "error" = some (.str e.toMsg) ∧ body.get? "result" = none) := by
  cases oc with
  | ok r =>
      refine ⟨.obj [("requestId", pyReqIdOf (.obj fs)), ("result", r)], ?_, ?_, ?_, ?_⟩
      · simp [on_vm_message, hsplit, hspecial]
      · simp [Json.get?]
      · intro r2 h
        cases h
        exact ⟨by simp [Json.get?], by simp [Json.get?]⟩
      · intro e h
        exact Except.noConfusion h
  | error e =>
      refine ⟨.obj [("requestId", pyReqIdOf (.obj fs)), ("error", .str e.toMsg)], ?_, ?_, ?_, ?_⟩
      · simp [on_vm_message, hsplit, hspecial]
      · simp [Json.get?]
      · intro r2 h
        exact Except.noConfusion h
      · intro e2 h
        cases h
        exact ⟨by simp [Json.get?], by simp [Json.get?]⟩

/-- Witness for C4 (amended) at a concrete pump/run command carrying
requestId "R7". -/
theorem vm_command_single_publish_witness :
    ∃ body : Json,
      on_vm_message "devices" [] "devices/espA/pump/run"
          (.wellFormed (.obj [("requestId", .str "R7")]))
          (.ok (.obj [("ok", .bool true)]))
        = .ok (some ⟨"espA", String.intercalate "/" ["pump", "run"],
                pyParamsOf (.obj [("requestId", .str "R7")])⟩,
            [.publishVm
              ("devices" ++ "/" ++ "espA" ++ "/" ++ "pump" ++ "/response/"
                ++ pyReqTail (.obj [("requestId", .str "R7")]))
              (.wellFormed body)])
      ∧ body.get? "requestId" = some (pyReqIdOf (.obj [("requestId", .str "R7")]))
      ∧ (∀ r, (Except.ok (ε := PyErr) (Json.obj [("ok", .bool true)])) = .ok r →
          body.get? "result" = some r ∧ body.get? "error" = none)
      ∧ (∀ e, (Except.ok (ε := PyErr) (Json.obj [("ok", .bool true)])) = .error e →
          body.get? "error" = some (.str e.toMsg) ∧ body.get? "result" = none) :=
  vm_command_single_publish_correlated "devices" "devices/espA/pump/run" "espA"
    "pump" "run" [] [("requestId", .str "R7")] [] (.ok (.obj [("ok", .bool true)]))
    (by decide) (by decide)

/-- C5 counterexample: the bucket-status route with a successful RPC result
returns a 200 body keyed device/bucket, not the claimed device/result. -/
theorem http_bucket_body_key_mismatch :
    get_bucket_status "espA" "r1"
        (.responded (.obj [("requestId", .str "r1"), ("result", .num 42)]))
      = .ok (.obj [("device", .str "espA"), ("bucket", .num 42)])
    ∧ (Json.obj [("device", .str "espA"), ("bucket", .num 42)])
        ≠ .obj [("device", .str "espA"), ("result", .num 42)] :=
  ⟨by decide, by decide⟩

/-- C5 (amended): each route performs its single mapped RPC call; a
successful call yields 200 with body device/result for the pump route,
device/bucket and device/wifi for the status routes, and devices for the
listing; an RPC timeout yields 504; and the adapter maps no RPC failure to
any other status — every error a route raises carries status 504; there is
no 502 path. -/
theorem http_adapter_outcome_mapping :
    (∀ dev sec reqId p, httpRespond (run_pump dev sec reqId (.responded p))
        = (200, .obj [("device", .str dev), ("result", (p.get? "result").getD .null)]))
    ∧ (∀ dev reqId p, httpRespond (get_bucket_status dev reqId (.responded p))
        = (200, .obj [("device", .str dev), ("bucket", (p.get? "result").getD .null)]))
    ∧ (∀ dev reqId p, httpRespond (get_wifi_status dev reqId (.responded p))
        = (200, .obj [("device", .str dev), ("wifi", (p.get? "result").getD .null)]))
    ∧ (∀ reqId p, httpRespond (get_all_devices reqId (.responded p))
        = (200, .obj [("devices", (p.get? "result").getD .null)]))
    ∧ (∀ dev sec reqId, (httpRespond (run_pump dev sec reqId .timedOut)).1 = 504)
    ∧ (∀ dev reqId, (httpRespond (get_bucket_status dev reqId .timedOut)).1 = 504)
    ∧ (∀ dev reqId, (httpRespond (get_wifi_status dev reqId .timedOut)).1 = 504)
    ∧ (∀ reqId, (httpRespond (get_all_devices reqId .timedOut)).1 = 504)
    ∧ (∀ dev sec reqId oc e, run_pump dev sec reqId oc = .error e → e.status = 504)
    ∧ (∀ dev reqId oc e, get_bucket_status dev reqId oc = .error e → e.status = 504)
    ∧ (∀ dev reqId oc e, get_wifi_status dev reqId oc = .error e → e.status = 504)
    ∧ (∀ reqId oc e, get_all_devices reqId oc = .error e → e.status = 504) := by
  refine ⟨fun dev sec reqId p => rfl, fun dev reqId p => rfl, fun dev reqId p => rfl,
    fun reqId p => rfl, fun dev sec reqId => rfl, fun dev reqId => rfl,
    fun dev reqId => rfl, fun reqId => rfl, ?_, ?_, ?_, ?_⟩
  · intro dev sec reqId oc e h
    cases oc with
    | responded p => exact Except.noConfusion h
    | timedOut =>
        simp only [run_pump, AsyncMqttRpcClient.call] at h
        cases h
        rfl
  · intro dev reqId oc e h
    cases oc with
    | responded p => exact Except.noConfusion h
    | timedOut =>
        simp only [get_bucket_status, AsyncMqttRpcClient.call] at h
        cases h
        rfl
  · intro dev reqId oc e h
    cases oc with
    | responded p => exact Except.noConfusion h
    | timedOut =>
        simp only [get_wifi_status, AsyncMqttRpcClient.call] at h
        cases h
        rfl
  · intro reqId oc e h
    cases oc with
    | responded p => exact Except.noConfusion h
    | timedOut =>
        simp only [get_all_devices, AsyncMqttRpcClient.call] at h
        cases h
        rfl

/-- Witness for C5 (amended): the timeout hypothesis discharged at the
concrete pump route. -/
theorem http_adapter_outcome_mapping_witness :
    (⟨504, "Timeout waiting for pump/run on espA"⟩ : HttpExc).status = 504 :=
  http_adapter_outcome_mapping.2.2.2.2.2.2.2.2.1 "espA" 7 "r1" .timedOut
    ⟨504, "Timeout waiting for pump/run on espA"⟩ (by decide)

theorem diskInv_reachable {d d' : Disk} (hinv : DiskInv d)
    (hsteps : Relation.ReflTransGen SaveStep d d') : DiskInv d' := by
  induction hsteps with
  | refl => exact hinv
  | tail _ hstep ih => exact diskInv_preserved ih hstep

/-- C6: starting from any disk whose registry path is absent or a complete
snapshot and whose temporary file, if complete, holds a serialized registry,
after any sequence of save steps of any registry values — interrupted at any
point — the registry path is still either absent or a complete well-formed
snapshot of some registry state, never a partial write: each save writes the
temporary sibling and then atomically renames it over the registry path. -/
theorem registry_file_never_partial (d d' : Disk) (hinv : DiskInv d)
    (hsteps : Relation.ReflTransGen SaveStep d d') : RegWellFormed d' :=
  (diskInv_reachable hinv hsteps).1

/-- Witness for C6: a full save of the empty registry onto an empty disk. -/
theorem registry_file_never_partial_witness :
    RegWellFormed ⟨some (.jsonText (saveJson [])), none⟩ :=
  registry_file_never_partial ⟨none, none⟩ ⟨some (.jsonText (saveJson [])), none⟩
    ⟨Or.inl rfl, fun j hj => by simp at hj⟩
    (Relation.ReflTransGen.tail
      (Relation.ReflTransGen.single (SaveStep.writeComplete ⟨none, none⟩ []))
      (SaveStep.rename ⟨none, some (.complete (saveJson []))⟩ (saveJson []) rfl))

/-- C7: after upserting an announcement A under its id D into a string-keyed
registry and saving, a fresh load yields a registry mapping D to A; and load
of a missing file, of a corrupt file, and of a well-formed non-dict file all
yield the empty registry instead of failing. -/
theorem registry_roundtrip_and_load_tolerance
    (reg : RegistryD) (D : String) (A : Json)
    (hkeys : ∀ kv ∈ reg, ∃ s, kv.1 = Json.str s)
    (_hid : A.get? "id" = some (.str D)) :
    dictGet (load_registry (some (.jsonText (saveJson (dictSet reg (.str D) A)))))
        (.str D) = some A
    ∧ load_registry none = []
    ∧ load_registry (some .corrupt) = []
    ∧ load_registry (some (.jsonText (.arr []))) = [] := by
  refine ⟨?_, rfl, rfl, rfl⟩
  rw [load_save_roundtrip _ (dictSet_strKeys reg D A hkeys)]
  exact dictGet_dictSet_self reg (.str D) A

/-- Witness for C7 at a concrete registry and announcement. -/
theorem registry_roundtrip_witness :
    dictGet (load_registry (some (.jsonText (saveJson (dictSet
          [(Json.str "espA", Json.obj [("id", .str "espA")])] (.str "espD")
          (.obj [("id", .str "espD"), ("fw", .str "0.9")]))))))
        (.str "espD") = some (.obj [("id", .str "espD"), ("fw", .str "0.9")])
    ∧ load_registry none = []
    ∧ load_registry (some .corrupt) = []
    ∧ load_registry (some (.jsonText (.arr []))) = [] :=
  registry_roundtrip_and_load_tolerance
    [(Json.str "espA", .obj [("id", .str "espA")])] "espD"
    (.obj [("id", .str "espD"), ("fw", .str "0.9")])
    (fun kv hkv => ⟨"espA", by rw [List.mem_singleton.mp hkv]⟩)
    (by decide)

/-- Python dict `d.pop(k, None)`: remove the binding of k, if present. -/
def dictPop {α : Type} (d : PyDict α) (k : Json) : PyDict α :=
  d.filter (fun kv => !(kv.1 == k))

/-- Effect of one traced action of `MqttRpcClient.call` on the mediator
pending table: line 146 inserts a fresh waiter (event not set, response
None), lines 160 and 178 pop; subscribes and publishes do not touch the
table. -/
def applyRpcEvent (p : Pending) : RpcEvent → Pending
  | .insertPending rid => dictSet p (.str rid) ⟨none, false⟩
  | .popPending rid => dictPop p (.str rid)
  | .subscribeLocal _ => p
  | .publishLocal _ _ => p

/-- Interleaved atomic transitions of the mediator RPC engine
(`MqttRpcClient`, mediator.py lines 80-197): an invocation of `call` under
the deployed retry bound of line 34, whose table actions are its trace
applied in order; and a broker delivery handled by `_on_message`, which
either returns the updated table or raises out of the paho thread leaving
the table untouched. -/
inductive MStep : Pending → Pending → Prop
  | callInvoke (p : Pending) (env : Option Rat) (device method : String)
      (params : Json) (uuid : Nat → String) (responder : Nat → Option Json) :
      MStep p ((MqttRpcClient.call (RPC_MAX_RETRIES env) device method params
          uuid responder).trace.foldl applyRpcEvent p)
  | onMessage (p p' : Pending) (raw : Raw)
      (h : MqttRpcClient.on_message p raw = .ok p') : MStep p p'
  | onMessageRaise (p : Pending) (raw : Raw) (e : PyErr)
      (h : MqttRpcClient.on_message p raw = .error e) : MStep p p

theorem on_message_empty_table (raw : Raw) (p' : Pending)
    (h : MqttRpcClient.on_message [] raw = .ok p') : p' = [] := by
  cases raw with
  | malformed => exact (Except.ok.inj h).symm
  | wellFormed j =>
      cases j with
      | obj fs =>
          simp only [MqttRpcClient.on_message] at h
          cases hg : (Json.obj fs).get? "requestId" with
          | none =>
              simp only [hg] at h
              exact (Except.ok.inj h).symm
          | some rid =>
              simp only [hg] at h
              by_cases ht : rid.truthy
              · by_cases hh : rid.hashable
                · simp only [ht, hh, Bool.not_true, Bool.false_eq_true, if_false,
                    dictGet, Option.isSome_none] at h
                  exact (Except.ok.inj h).symm
                · simp only [ht, hh, Bool.not_true, Bool.not_false, Bool.false_eq_true,
                    if_false, if_true] at h
                  exact Except.noConfusion h
              · simp only [Bool.not_eq_true] at ht
                simp only [ht, Bool.not_false, if_true] at h
                exact (Except.ok.inj h).symm
      | null => exact Except.noConfusion h
      | bool b => exact Except.noConfusion h
      | num n => exact Except.noConfusion h
      | str s => exact Except.noConfusion h
      | arr xs => exact Except.noConfusion h

/-- In every reachable execution of the mediator RPC engine the pending
table is empty: the float retry bound of line 34 makes every call raise
its TypeError before the insert of line 146 runs, and `_on_message` only
ever mutates an existing entry. -/
theorem mediator_pending_always_empty {p : Pending}
    (h : Relation.ReflTransGen MStep [] p) : p = [] := by
  induction h with
  | refl => rfl
  | tail hsteps hstep ih =>
      cases hstep with
      | callInvoke env device method params uuid responder =>
          rw [ih]
          rfl
      | onMessage =>
          rename_i raw2 h2
          rw [ih] at h2
          exact on_message_empty_table raw2 _ h2
      | onMessageRaise => exact ih

/-- C8: pending-table invariants of both RPC engines.  Controller engine
(`AsyncMqttRpcClient`, controller.py): in every reachable state each
request id has been inserted into the pending table at most once — so at
most one waiter per id ever exists — each waiter has been signalled at most
once, and every id whose call has returned, normally or by raising, is
absent from the table.  Mediator engine (`MqttRpcClient`, mediator.py): in
every reachable execution the pending table is empty — every call raises
TypeError before inserting its waiter and `_on_message` never inserts — so
no id ever has a waiter present, no waiter is ever signalled, and after any
call no id remains in the table. -/
theorem rpc_pending_table_invariants (s : EngineState) (p : Pending)
    (h : Relation.ReflTransGen EStep engineInit s)
    (hm : Relation.ReflTransGen MStep [] p) :
    ((∀ id, s.inserts id ≤ 1) ∧ (∀ id, s.sigs id ≤ 1)
      ∧ ∀ id ∈ s.returned, id ∉ s.pendingT)
    ∧ p = [] ∧ ∀ rid : Json, dictGet p rid = none := by
  have hinv := engineInv_reachable h
  have hp := mediator_pending_always_empty hm
  exact ⟨⟨hinv.insertsLe, hinv.sigsLe, hinv.returnedNotPending⟩, hp,
    fun rid => by rw [hp]; rfl⟩

/-- The controller engine state after one call has started with fresh id
"a". -/
def engineS1 : EngineState :=
  ⟨["a"], ["a"], [], ["a"], [], bump (fun _ => 0) "a", fun _ => 0⟩

/-- Witness for C8: the invariants at the concrete controller state after
one startCall step and the concrete mediator table after one
(TypeError-raising) call invocation. -/
theorem rpc_pending_table_invariants_witness :
    ((∀ id, engineS1.inserts id ≤ 1) ∧ (∀ id, engineS1.sigs id ≤ 1)
      ∧ ∀ id ∈ engineS1.returned, id ∉ engineS1.pendingT)
    ∧ ([] : Pending) = [] ∧ ∀ rid : Json, dictGet ([] : Pending) rid = none :=
  rpc_pending_table_invariants engineS1 []
    (Relation.ReflTransGen.single (EStep.startCall engineInit "a" (by simp [engineInit])))
    (Relation.ReflTransGen.single (MStep.callInvoke [] none "espC" "bucket/get"
      (.obj []) (fun _ => "r1") (fun _ => none)))

/-- C9 counterexample: an announcement that parses as JSON with an id field
whose value is the empty string — the registry is left unchanged and no
save is triggered, refuting the claim that every payload with an id field
is upserted; the raw payload is still forwarded. -/
theorem announce_empty_id_not_upserted :
    on_local_message "devices" [] "devices/announce"
        (.wellFormed (.obj [("id", .str "")]))
      = ⟨[], false,
          [.publishVm "devices/announce" (.wellFormed (.obj [("id", .str "")]))]⟩
    ∧ (Json.obj [("id", .str "")]).get? "id" = some (.str "") :=
  ⟨by decide, by decide⟩

/-- C9 (amended): every message on devices/announce is forwarded verbatim to
the remote broker on devices/announce, with no prefix applied.  When the
payload parses as a JSON object whose id value is truthy and hashable, the
registry entry for that id is overwritten with the payload (later
announcements overwrite earlier ones) and a save is triggered.  In every
other case the registry is left unchanged and no save happens: a malformed
payload; a falsy id value such as the empty string; a truthy but unhashable
id (a list or object), whose dict assignment raises a TypeError that the
handler catches before any save; a payload without an id field; and a
payload that is not an object. -/
theorem announce_forward_and_upsert (vmBase : String) (reg : RegistryD) (raw : Raw) :
    (on_local_message vmBase reg "devices/announce" raw).effects
        = [.publishVm "devices/announce" raw]
    ∧ (∀ d devId, raw = .wellFormed d → d.get? "id" = some devId →
        devId.truthy = true → devId.hashable = true →
        (on_local_message vmBase reg "devices/announce" raw).registry = dictSet reg devId d
        ∧ (on_local_message vmBase reg "devices/announce" raw).savedRegistry = true)
    ∧ (∀ d devId, raw = .wellFormed d → d.get? "id" = some devId →
        devId.truthy = true → devId.hashable = false →
        (on_local_message vmBase reg "devices/announce" raw).registry = reg
        ∧ (on_local_message vmBase reg "devices/announce" raw).savedRegistry = false)
    ∧ (∀ d devId, raw = .wellFormed d → d.get? "id" = some devId → devId.truthy = false →
        (on_local_message vmBase reg "devices/announce" raw).registry = reg
        ∧ (on_local_message vmBase reg "devices/announce" raw).savedRegistry = false)
    ∧ (∀ d, raw = .wellFormed d → d.get? "id" = none →
        (on_local_message vmBase reg "devices/announce" raw).registry = reg
        ∧ (on_local_message vmBase reg "devices/announce" raw).savedRegistry = false)
    ∧ (raw = .malformed →
        (on_local_message vmBase reg "devices/announce" raw).registry = reg
        ∧ (on_local_message vmBase reg "devices/announce" raw).savedRegistry = false) := by
  refine ⟨?_, ?_, ?_, ?_, ?_, ?_⟩
  · cases raw with
    | malformed => simp [on_local_message]
    | wellFormed d => cases d <;> simp [on_local_message]
  · intro d devId hraw hget htr hh
    subst hraw
    cases d with
    | obj fs =>
        exact ⟨by simp [on_local_message, hget, htr, hh],
               by simp [on_local_message, hget, htr, hh]⟩
    | null => exact absurd hget (by simp [Json.get?])
    | bool b => exact absurd hget (by simp [Json.get?])
    | num n => exact absurd hget (by simp [Json.get?])
    | str s => exact absurd hget (by simp [Json.get?])
    | arr xs => exact absurd hget (by simp [Json.get?])
  · intro d devId hraw hget htr hh
    subst hraw
    cases d with
    | obj fs =>
        exact ⟨by simp [on_local_message, hget, htr, hh],
               by simp [on_local_message, hget, htr, hh]⟩
    | null => exact absurd hget (by simp [Json.get?])
    | bool b => exact absurd hget (by simp [Json.get?])
    | num n => exact absurd hget (by simp [Json.get?])
    | str s => exact absurd hget (by simp [Json.get?])
    | arr xs => exact absurd hget (by simp [Json.get?])
  · intro d devId hraw hget htr
    subst hraw
    cases d with
    | obj fs =>
        exact ⟨by simp [on_local_message, hget, htr], by simp [on_local_message, hget, htr]⟩
    | null => exact absurd hget (by simp [Json.get?])
    | bool b => exact absurd hget (by simp [Json.get?])
    | num n => exact absurd hget (by simp [Json.get?])
    | str s => exact absurd hget (by simp [Json.get?])
    | arr xs => exact absurd hget (by simp [Json.get?])
  · intro d hraw hget
    subst hraw
    cases d with
    | obj fs =>
        exact ⟨by simp [on_local_message, hget], by simp [on_local_message, hget]⟩
    | null => exact ⟨by simp [on_local_message], by simp [on_local_message]⟩
    | bool b => exact ⟨by simp [on_local_message], by simp [on_local_message]⟩
    | num n => exact ⟨by simp [on_local_message], by simp [on_local_message]⟩
    | str s => exact ⟨by simp [on_local_message], by simp [on_local_message]⟩
    | arr xs => exact ⟨by simp [on_local_message], by simp [on_local_message]⟩
  · intro hraw
    subst hraw
    exact ⟨by simp [on_local_message], by simp [on_local_message]⟩

/-- Witness for C9 (amended) at a concrete truthy, hashable announcement
id. -/
theorem announce_forward_and_upsert_witness :
    (on_local_message "devices" [] "devices/announce"
        (.wellFormed (.obj [("id", .str "espD"), ("fw", .str "0.9")]))).registry
        = dictSet [] (.str "espD") (.obj [("id", .str "espD"), ("fw", .str "0.9")])
    ∧ (on_local_message "devices" [] "devices/announce"
        (.wellFormed (.obj [("id", .str "espD"), ("fw", .str "0.9")]))).savedRegistry
        = true :=
  (announce_forward_and_upsert "devices" [] _).2.1
    (.obj [("id", .str "espD"), ("fw", .str "0.9")]) (.str "espD")
    rfl (by decide) (by decide) (by decide)
